import Mathlib

/-!
Verification of the OEE / downtime-Pareto / SPC aggregation pipeline of
`streamlit_app/app.py` (Production-Performance-Analysis-and-Continuous-
Improvement).  The pandas dataframes are embedded as lists of records;
float arithmetic on the derived ratio columns is embedded as exact
rationals extended with the IEEE special values that pandas division can
produce (`inf`, `-inf`, `nan`), so that unguarded divisions by zero are
visible in the model exactly where they happen in the code.
-/

namespace OEEApp

/-- Pandas float values as they occur in the pipeline: a finite rational,
positive infinity, negative infinity, or NaN. -/
inductive PVal where
  | num : ℚ → PVal
  | inf : PVal
  | neginf : PVal
  | nan : PVal
deriving Repr, DecidableEq

/-- IEEE-style division producing `nan` for 0/0 and signed infinities for
x/0 with x ≠ 0, as pandas column division does (it does not raise). -/
def pdiv (a b : ℚ) : PVal :=
  if b = 0 then
    if a = 0 then .nan else if 0 < a then .inf else .neginf
  else .num (a / b)

/-- IEEE-style multiplication on `PVal` (as used for `oee = a*p*q`). -/
def pmul : PVal → PVal → PVal
  | .nan, _ => .nan
  | _, .nan => .nan
  | .num a, .num b => .num (a * b)
  | .num a, .inf => if a = 0 then .nan else if 0 < a then .inf else .neginf
  | .inf, .num a => if a = 0 then .nan else if 0 < a then .inf else .neginf
  | .num a, .neginf => if a = 0 then .nan else if 0 < a then .neginf else .inf
  | .neginf, .num a => if a = 0 then .nan else if 0 < a then .neginf else .inf
  | .inf, .inf => .inf
  | .inf, .neginf => .neginf
  | .neginf, .inf => .neginf
  | .neginf, .neginf => .inf

/-- IEEE-style addition on `PVal` (as used when summing a float column). -/
def padd : PVal → PVal → PVal
  | .nan, _ => .nan
  | _, .nan => .nan
  | .num a, .num b => .num (a + b)
  | .num _, .inf => .inf
  | .inf, .num _ => .inf
  | .num _, .neginf => .neginf
  | .neginf, .num _ => .neginf
  | .inf, .inf => .inf
  | .inf, .neginf => .nan
  | .neginf, .inf => .nan
  | .neginf, .neginf => .inf

/-- Sum of a list of pandas float values. -/
def psum (l : List PVal) : PVal := l.foldr padd (.num 0)

/-- Division of a pandas float by a positive count (used by `mean`). -/
def pdivNat (v : PVal) (n : ℕ) : PVal :=
  match v with
  | .num a => .num (a / n)
  | .inf => .inf
  | .neginf => .neginf
  | .nan => .nan

/-- Pandas `Series.mean` with its default `skipna=True`: NaN entries are
dropped; the mean of an empty (or all-NaN) series is NaN; an infinity
among the remaining entries propagates into the mean. -/
def pmean (l : List PVal) : PVal :=
  let kept := l.filter (fun v => v ≠ PVal.nan)
  if kept.isEmpty then .nan else pdivNat (psum kept) kept.length

/-- The constant `IDEAL_RATE = 6` (app.py line 20). -/
def IDEAL_RATE : ℚ := 6

/-- One row of the minutely production log `factory_data.csv`: the
timestamp is kept as its calendar date (the only use the pipeline makes
of it besides counting rows), `day` is the CSV's day column, and
`is_running` is the 0/1 flag the code sums. -/
structure MinuteRecord where
  date : ℕ
  machine : String
  shift : String
  day : ℕ
  is_running : ℕ
  units : ℕ
  good_units : ℕ
deriving Repr, DecidableEq

/-- The sidebar filter selection: one machine, a subset of shifts, an
inclusive date range. -/
structure FilterSel where
  machine : String
  shifts : List String
  dstart : ℕ
  dend : ℕ
deriving Repr, DecidableEq

/-- The filter of app.py lines 58-63: machine equality, shift membership,
inclusive date-range check on the timestamp's date. -/
def filtered (df : List MinuteRecord) (s : FilterSel) : List MinuteRecord :=
  df.filter (fun r =>
    r.machine == s.machine && s.shifts.contains r.shift &&
    decide (s.dstart ≤ r.date) && decide (r.date ≤ s.dend))

/-- The per-day integer aggregates of `groupby("day").agg(...)`:
`planned_min` counts the rows, the rest are column sums. -/
structure DailyAgg where
  day : ℕ
  planned_min : ℕ
  running_min : ℕ
  total_units : ℕ
  good_units : ℕ
deriving Repr, DecidableEq

/-- The distinct day keys, ascending: pandas `groupby` sorts its group
keys by default. -/
def dayKeys (l : List MinuteRecord) : List ℕ :=
  ((l.map MinuteRecord.day).dedup).insertionSort (· ≤ ·)

/-- Aggregate one day group: count of rows, sums of `is_running`,
`units`, `good_units` over the rows of that day. -/
def aggDay (l : List MinuteRecord) (d : ℕ) : DailyAgg :=
  let g := l.filter (fun r => r.day == d)
  { day := d
    planned_min := g.length
    running_min := (g.map MinuteRecord.is_running).sum
    total_units := (g.map MinuteRecord.units).sum
    good_units := (g.map MinuteRecord.good_units).sum }

/-- A row of the derived `daily_oee` table (aggregates plus the four
ratio columns added in app.py lines 80-87). -/
structure DailyOEERow where
  day : ℕ
  planned_min : ℕ
  running_min : ℕ
  total_units : ℕ
  good_units : ℕ
  availability : PVal
  performance : PVal
  quality : PVal
  oee : PVal
deriving Repr, DecidableEq

/-- The ratio columns: `availability = running/planned`, `performance =
total/(IDEAL_RATE*running)`, `quality = good/total`, `oee` their product,
each by unguarded float division exactly as in the source. -/
def oeeRow (a : DailyAgg) : DailyOEERow :=
  let av := pdiv a.running_min a.planned_min
  let pf := pdiv a.total_units (IDEAL_RATE * a.running_min)
  let ql := pdiv a.good_units a.total_units
  { day := a.day
    planned_min := a.planned_min
    running_min := a.running_min
    total_units := a.total_units
    good_units := a.good_units
    availability := av
    performance := pf
    quality := ql
    oee := pmul (pmul av pf) ql }

/-- The `daily_oee` table of app.py lines 68-87: group the (already
filtered) minute log by day and derive the ratio columns. -/
def daily_oee (l : List MinuteRecord) : List DailyOEERow :=
  (dayKeys l).map (fun d => oeeRow (aggDay l d))

/-- The mean `daily_oee["oee"].mean()` (app.py line 118). -/
def avg_oee (l : List MinuteRecord) : PVal := pmean ((daily_oee l).map DailyOEERow.oee)

/-- The mean `daily_oee["availability"].mean()` (app.py line 119). -/
def avg_av (l : List MinuteRecord) : PVal :=
  pmean ((daily_oee l).map DailyOEERow.availability)

/-- The mean `daily_oee["performance"].mean()` (app.py line 120). -/
def avg_perf (l : List MinuteRecord) : PVal :=
  pmean ((daily_oee l).map DailyOEERow.performance)

/-- The mean `daily_oee["quality"].mean()` (app.py line 121). -/
def avg_qual (l : List MinuteRecord) : PVal :=
  pmean ((daily_oee l).map DailyOEERow.quality)

/-- The KPI status function of app.py lines 92-98, on exact rationals
(the real line of the spec): green at ≥ 0.85, yellow at ≥ 0.75, red
otherwise. -/
def kpi_status (value : ℚ) : String :=
  if value ≥ 0.85 then "🟢"
  else if value ≥ 0.75 then "🟡"
  else "🔴"

/-- One row of `downtime_pareto.csv`. -/
structure DowntimeEvent where
  machine : String
  cause : String
  minutes : ℚ
deriving Repr, DecidableEq

/-- A grouped (cause, summed minutes) row before the cumulative column. -/
structure ParetoRow where
  cause : String
  minutes : ℚ
deriving Repr, DecidableEq

/-- A row of the displayed Pareto table with the `cum_pct` column. -/
structure ParetoRowC where
  cause : String
  minutes : ℚ
  cum_pct : PVal
deriving Repr, DecidableEq

/-- Code point of a character, as the natural number Python compares. -/
def charCode (c : Char) : ℕ := c.val.toNat

/-- Lexicographic comparison of strings by code point — the order Python
and numpy use when pandas sorts string group keys. -/
def lexLe : List Char → List Char → Bool
  | [], _ => true
  | _ :: _, [] => false
  | a :: as, b :: bs =>
    if charCode a < charCode b then true
    else if charCode b < charCode a then false
    else lexLe as bs

/-- String comparison as pandas sorts group labels. -/
def strLe (a b : String) : Prop := lexLe a.data b.data = true

instance : DecidableRel strLe := fun a b => by unfold strLe; infer_instance

/-- The distinct cause labels in ascending label order: pandas `groupby`
sorts its group keys by default, so the grouped frame is ordered by
cause label, not by first appearance. -/
def causeKeys (l : List DowntimeEvent) : List String :=
  ((l.map DowntimeEvent.cause).dedup).insertionSort strLe

/-- The grouped sum `groupby("cause")["minutes"].sum()` over the events of one machine. -/
def grouped_dt (l : List DowntimeEvent) (m : String) : List ParetoRow :=
  let f := l.filter (fun e => e.machine == m)
  (causeKeys f).map (fun c =>
    ⟨c, ((f.filter (fun e => e.cause == c)).map DowntimeEvent.minutes).sum⟩)

/-- The sort `sort_values("minutes", ascending=False)`: pandas computes the
ascending argsort of the column and reverses it (`nargsort`), so the
descending order is the reverse of an ascending sort — for small inputs
numpy's sort is stable, so ties come out in reverse of their grouped
(alphabetical) order. -/
def dt_sorted (l : List DowntimeEvent) (m : String) : List ParetoRow :=
  ((grouped_dt l m).insertionSort (fun a b => a.minutes ≤ b.minutes)).reverse

/-- Attach `cum_pct`: running cumulative sum of minutes divided (by
pandas float division) by the total. -/
def withCum (total : ℚ) : ℚ → List ParetoRow → List ParetoRowC
  | _, [] => []
  | acc, r :: rs =>
      ⟨r.cause, r.minutes, pdiv (acc + r.minutes) total⟩ :: withCum total (acc + r.minutes) rs

/-- The `dt` Pareto table of app.py lines 157-165: group the one
machine's downtime events by cause, sum minutes, sort descending,
attach the cumulative-percentage column. -/
def dt (l : List DowntimeEvent) (m : String) : List ParetoRowC :=
  let s := dt_sorted l m
  withCum ((s.map ParetoRow.minutes).sum) 0 s

/-- One row of `spc_xbar_r.csv`. -/
structure SPCSample where
  machine : String
  xbar : ℚ
  R : ℚ
deriving Repr, DecidableEq

/-- The single-row SPC summary table. -/
structure SPCSummary where
  avg_xbar : PVal
  avg_range : PVal
  max_range : PVal
deriving Repr, DecidableEq

/-- Mean of a numeric column (NaN on an empty column, as pandas). -/
def qmean (l : List ℚ) : PVal :=
  if l.isEmpty then .nan else .num (l.sum / l.length)

/-- Max of a numeric column (NaN on an empty column, as pandas). -/
def qmax : List ℚ → PVal
  | [] => .nan
  | x :: xs => .num (xs.foldl max x)

/-- The `spc_summary` aggregation of app.py lines 186-194: mean of
`xbar`, mean of `R`, max of `R` over the one machine's samples. -/
def spc_summary (l : List SPCSample) (m : String) : SPCSummary :=
  let f := l.filter (fun s => s.machine == m)
  { avg_xbar := qmean (f.map SPCSample.xbar)
    avg_range := qmean (f.map SPCSample.R)
    max_range := qmax (f.map SPCSample.R) }

/-- The SPC tab's status banner (app.py line 198): a string literal, so
embedded as a function of the displayed data that ignores it. -/
def processStatus (_l : List SPCSample) (_m : String) : String :=
  "Process Status: In Control"

/-- The OEE loss breakdown rows of app.py lines 138-145, as
(component, loss) pairs: availability and quality losses are plain
`1 - mean`, performance loss is clamped at 0 by Python `max`. -/
def loss_df (av pf ql : ℚ) : List (String × ℚ) :=
  [("Availability Loss", 1 - av),
   ("Performance Loss", max 0 (1 - pf)),
   ("Quality Loss", 1 - ql)]

/-- All three derived tables from the raw tables and one filter
selection — the full recomputation one user interaction triggers. -/
def deriveAll (minutely : List MinuteRecord) (downtime : List DowntimeEvent)
    (spc : List SPCSample) (sel : FilterSel) :
    List DailyOEERow × List ParetoRowC × SPCSummary :=
  (daily_oee (filtered minutely sel), dt downtime sel.machine, spc_summary spc sel.machine)

/-- The spec's worked OEE example, as a concrete minute log: one machine
`M1`, one day, 480 minute rows of which 450 are running; 400 running
minutes produce 6 good units each, 50 running minutes produce 2 units of
which 1 is good, 30 stopped minutes produce nothing.  Totals:
`planned_min = 480`, `running_min = 450`, `total_units = 2500`,
`good_units = 2450`. -/
def exM1 : List MinuteRecord :=
  List.replicate 400 ⟨1, "M1", "S1", 1, 1, 6, 6⟩ ++
  List.replicate 50 ⟨1, "M1", "S1", 1, 1, 2, 1⟩ ++
  List.replicate 30 ⟨1, "M1", "S1", 1, 0, 0, 0⟩

/-- The spec's downtime example: causes A:120, B:80, C:50, D:10 on one
machine. -/
def exDT : List DowntimeEvent :=
  [⟨"M1", "A", 120⟩, ⟨"M1", "B", 80⟩, ⟨"M1", "C", 50⟩, ⟨"M1", "D", 10⟩]

/-- Two equal-minute causes, first seen in the order A then B. -/
def exTie : List DowntimeEvent := [⟨"M1", "A", 50⟩, ⟨"M1", "B", 50⟩]

/-- A day with `running_min = 0` but positive units: the divisor of
`performance` is zero. -/
def exStall : List MinuteRecord := [⟨1, "M1", "S1", 1, 0, 5, 5⟩]

/-- A well-formed day whose throughput beats the ideal rate: one running
minute producing 10 good units. -/
def exOver : List MinuteRecord := [⟨1, "M1", "S1", 1, 1, 10, 10⟩]

/-- Order on pandas floats restricted to finite values: both are numbers
and the first is at most the second (how "non-decreasing" reads on a
float column known to be finite). -/
def pLe (a b : PVal) : Prop := ∃ x y : ℚ, a = .num x ∧ b = .num y ∧ x ≤ y

instance : IsTotal ParetoRow (fun a b => a.minutes ≤ b.minutes) :=
  ⟨fun a b => le_total a.minutes b.minutes⟩

instance : IsTrans ParetoRow (fun a b => a.minutes ≤ b.minutes) :=
  ⟨fun _ _ _ h1 h2 => le_trans h1 h2⟩

end OEEApp

namespace OEEApp

/-- Deduplicating a nonempty constant list leaves its single value. -/
lemma dedup_replicate_succ {α : Type _} [DecidableEq α] (n : ℕ) (a : α) :
    (List.replicate (n + 1) a).dedup = [a] := by
  induction n with
  | zero => simp
  | succ k ih =>
      rw [List.replicate_succ, List.dedup_cons_of_mem (by simp [List.mem_replicate]), ih]

/-- Every row of the worked example belongs to day 1. -/
lemma exM1_day_map : exM1.map MinuteRecord.day = List.replicate 480 1 := by
  simp only [exM1, List.map_append, List.map_replicate, ← List.replicate_add]

/-- The worked example has a single day group. -/
lemma dayKeys_exM1 : dayKeys exM1 = [1] := by
  rw [dayKeys, exM1_day_map, show (480 : ℕ) = 479 + 1 by norm_num, dedup_replicate_succ]
  simp

/-- Day 1's group in the worked example is the whole log. -/
lemma exM1_filter_day : exM1.filter (fun r => r.day == 1) = exM1 := by
  rw [List.filter_eq_self]
  intro a ha
  simp only [exM1, List.mem_append, List.mem_replicate] at ha
  rcases ha with (⟨_, h⟩ | ⟨_, h⟩) | ⟨_, h⟩ <;> subst h <;> rfl

/-- The worked example's day-1 aggregates: 480 planned minutes, 450
running, 2500 units, 2450 good. -/
lemma aggDay_exM1 : aggDay exM1 1 = ⟨1, 480, 450, 2500, 2450⟩ := by
  simp only [aggDay, exM1_filter_day]
  simp only [exM1, List.length_append, List.length_replicate, List.map_append,
    List.map_replicate, List.sum_append, List.sum_replicate, smul_eq_mul]

/-- Full evaluation of `daily_oee` on the worked example: availability
15/16 = 0.9375, performance 25/27 ≈ 0.9259, quality 49/50 = 0.98, and
oee 245/288 ≈ 0.8507. -/
lemma daily_oee_exM1 :
    daily_oee exM1 =
      [⟨1, 480, 450, 2500, 2450, .num (15/16), .num (25/27), .num (49/50),
        .num (245/288)⟩] := by
  rw [daily_oee, dayKeys_exM1]
  simp only [List.map_cons, List.map_nil, aggDay_exM1]
  norm_num [oeeRow, pdiv, pmul, IDEAL_RATE]

/-- Evaluation of `daily_oee` on the stalled day: availability 0,
performance +∞ (5 units over a zero-minute divisor), quality 1, and a
NaN oee (0 · ∞). -/
lemma daily_oee_exStall :
    daily_oee exStall = [⟨1, 1, 0, 5, 5, .num 0, .inf, .num 1, .nan⟩] := by
  have hk : dayKeys exStall = [1] := by
    simp [dayKeys, exStall, List.dedup]
  rw [daily_oee, hk]
  simp only [List.map_cons, List.map_nil]
  have ha : aggDay exStall 1 = ⟨1, 1, 0, 5, 5⟩ := by
    simp [aggDay, exStall]
  rw [ha]
  norm_num [oeeRow, pdiv, pmul, IDEAL_RATE]

/-- Evaluation of `daily_oee` on the over-nominal day: performance
5/3 > 1, unclamped. -/
lemma daily_oee_exOver :
    daily_oee exOver = [⟨1, 1, 1, 10, 10, .num 1, .num (5/3), .num 1, .num (5/3)⟩] := by
  have hk : dayKeys exOver = [1] := by
    simp [dayKeys, exOver, List.dedup]
  rw [daily_oee, hk]
  simp only [List.map_cons, List.map_nil]
  have ha : aggDay exOver 1 = ⟨1, 1, 1, 10, 10⟩ := by
    simp [aggDay, exOver]
  rw [ha]
  norm_num [oeeRow, pdiv, pmul, IDEAL_RATE]

/-- The stalled day's +∞ performance passes straight into the
performance mean. -/
lemma avg_perf_exStall : avg_perf exStall = .inf := by
  rw [avg_perf, daily_oee_exStall]
  simp [pmean, psum, padd, pdivNat]

/-- The stalled day's oee mean is NaN (its only oee is NaN, and pandas
`mean` drops NaN entries, leaving an empty mean). -/
lemma avg_oee_exStall : avg_oee exStall = .nan := by
  rw [avg_oee, daily_oee_exStall]
  simp [pmean]

/-- C1 (amended): for every already-filtered minute log, `daily_oee`
groups rows by day, computes per day `planned_min` = row count,
`running_min` = sum of `is_running`, `total_units` and `good_units` =
column sums, and derives `availability = running/planned`, `performance
= total/(6·running)`, `quality = good/total`, `oee` = their product; on
the spec's worked day (480/450/2500/2450) this gives availability
15/16 = 0.9375, performance 25/27 ≈ 0.9259, quality 49/50 = 0.98, and
oee = 245/288 ≈ 0.8507 (not ≈ 0.9005 as the spec's example states). -/
theorem C1_daily_oee (l : List MinuteRecord) (r : DailyOEERow) (hr : r ∈ daily_oee l) :
    (r.planned_min = (l.filter (fun x => x.day == r.day)).length ∧
     r.running_min = ((l.filter (fun x => x.day == r.day)).map MinuteRecord.is_running).sum ∧
     r.total_units = ((l.filter (fun x => x.day == r.day)).map MinuteRecord.units).sum ∧
     r.good_units = ((l.filter (fun x => x.day == r.day)).map MinuteRecord.good_units).sum ∧
     r.availability = pdiv r.running_min r.planned_min ∧
     r.performance = pdiv r.total_units (IDEAL_RATE * r.running_min) ∧
     r.quality = pdiv r.good_units r.total_units ∧
     r.oee = pmul (pmul r.availability r.performance) r.quality) ∧
    (∀ d, (∃ s ∈ daily_oee l, DailyOEERow.day s = d) ↔ ∃ x ∈ l, MinuteRecord.day x = d) ∧
    daily_oee exM1 =
      [⟨1, 480, 450, 2500, 2450, .num (15/16), .num (25/27), .num (49/50),
        .num (245/288)⟩] := by
  refine ⟨?_, ?_, daily_oee_exM1⟩
  · obtain ⟨d, _, rfl⟩ := List.mem_map.1 hr
    exact ⟨rfl, rfl, rfl, rfl, rfl, rfl, rfl, rfl⟩
  · intro d
    constructor
    · rintro ⟨s, hs, hd⟩
      obtain ⟨d', hd', rfl⟩ := List.mem_map.1 hs
      have hdd : d' = d := hd
      subst hdd
      rw [dayKeys, List.mem_insertionSort, List.mem_dedup] at hd'
      obtain ⟨x, hx, hxd⟩ := List.mem_map.1 hd'
      exact ⟨x, hx, hxd⟩
    · rintro ⟨x, hx, rfl⟩
      refine ⟨oeeRow (aggDay l x.day), List.mem_map_of_mem _ ?_, rfl⟩
      rw [dayKeys, List.mem_insertionSort, List.mem_dedup]
      exact List.mem_map_of_mem _ hx

/-- C1 counterexample: at the spec's own worked input the code's oee is
245/288 ≈ 0.8507, which is not within 0.005 of the spec's claimed
≈ 0.9005 (the product 0.9375 · 0.9259 · 0.98 is ≈ 0.8507, so the
spec's example arithmetic is wrong). -/
theorem C1_counterexample :
    daily_oee exM1 =
      [⟨1, 480, 450, 2500, 2450, .num (15/16), .num (25/27), .num (49/50),
        .num (245/288)⟩] ∧
    ∀ q : ℚ, (daily_oee exM1).map DailyOEERow.oee = [.num q] → ¬ |q - 0.9005| < 0.005 := by
  refine ⟨daily_oee_exM1, ?_⟩
  intro q hq
  rw [daily_oee_exM1] at hq
  simp only [List.map_cons, List.map_nil, List.cons.injEq, PVal.num.injEq, and_true] at hq
  rw [← hq, abs_of_nonpos (by norm_num)]
  norm_num

/-- C1 witness: the theorem applied to the worked example's single row. -/
theorem C1_daily_oee_witness :
    (⟨1, 480, 450, 2500, 2450, .num (15/16), .num (25/27), .num (49/50),
      .num (245/288)⟩ : DailyOEERow).oee =
      pmul (pmul (.num (15/16)) (.num (25/27))) (.num (49/50)) :=
  (C1_daily_oee exM1
    ⟨1, 480, 450, 2500, 2450, .num (15/16), .num (25/27), .num (49/50), .num (245/288)⟩
    (by rw [daily_oee_exM1]; exact List.mem_cons_self _ _)).1.2.2.2.2.2.2.2

/-- C5 (the code at the claim's failing input): a filtered day with
`running_min = 0` and positive units makes the unguarded division
produce `performance = +∞`, which flows unflagged into the performance
mean (the mean itself becomes +∞), and the day's oee silently becomes
NaN — the code has no explicit undefined marker and does not exclude
the day. -/
theorem C5_div_zero_inf :
    (daily_oee exStall).map DailyOEERow.performance = [.inf] ∧
    avg_perf exStall = .inf ∧
    (daily_oee exStall).map DailyOEERow.oee = [.nan] ∧
    avg_oee exStall = .nan := by
  refine ⟨?_, avg_perf_exStall, ?_, avg_oee_exStall⟩ <;> rw [daily_oee_exStall] <;> rfl

/-- C6 (amended): any filter selection matching no rows yields an empty
`DailyOEE` table without any error case (in particular an empty shift
subset filters to nothing), and the aggregate KPI means over that empty
table evaluate to NaN — pandas' mean of an empty series — rather than
to an explicit "no data" result (they are displayed as "nan%", not as
0%). -/
theorem C6_empty_filter (df : List MinuteRecord) (sel : FilterSel)
    (h : filtered df sel = []) :
    daily_oee (filtered df sel) = [] ∧
    avg_oee (filtered df sel) = .nan ∧
    avg_av (filtered df sel) = .nan ∧
    avg_perf (filtered df sel) = .nan ∧
    avg_qual (filtered df sel) = .nan ∧
    ∀ (df2 : List MinuteRecord) (m : String) (a b : ℕ),
      filtered df2 ⟨m, [], a, b⟩ = [] := by
  rw [h]
  refine ⟨rfl, rfl, rfl, rfl, rfl, ?_⟩
  intro df2 m a b
  rw [filtered, List.filter_eq_nil_iff]
  intro x _
  simp

/-- C6 counterexample: for a concrete one-row log and a shift selection
matching nothing, the aggregate oee mean is the NaN value itself — not
an explicit "no data" result distinct from NaN. -/
theorem C6_counterexample :
    filtered exStall ⟨"M1", [], 0, 9⟩ = [] ∧
    avg_oee (filtered exStall ⟨"M1", [], 0, 9⟩) = .nan := by
  have h : filtered exStall ⟨"M1", [], 0, 9⟩ = [] := by
    simp [filtered, exStall]
  exact ⟨h, by rw [h]; rfl⟩

/-- C6 witness: the theorem applied to the concrete empty-shift
selection. -/
theorem C6_empty_filter_witness :
    daily_oee (filtered exStall ⟨"M1", [], 0, 9⟩) = [] ∧
    avg_oee (filtered exStall ⟨"M1", [], 0, 9⟩) = .nan ∧
    avg_av (filtered exStall ⟨"M1", [], 0, 9⟩) = .nan ∧
    avg_perf (filtered exStall ⟨"M1", [], 0, 9⟩) = .nan ∧
    avg_qual (filtered exStall ⟨"M1", [], 0, 9⟩) = .nan ∧
    ∀ (df2 : List MinuteRecord) (m : String) (a b : ℕ),
      filtered df2 ⟨m, [], a, b⟩ = [] :=
  C6_empty_filter exStall ⟨"M1", [], 0, 9⟩ (by simp [filtered, exStall])

/-- C2: the KPI status classifier is total on the rationals and maps a
value to exactly one of three statuses by the thresholds `value ≥ 0.85 →
green ("good")`, `0.75 ≤ value < 0.85 → yellow ("warning")`, `value <
0.75 → red ("critical")`; in particular 0.80 is yellow, 0.90 is green,
0.60 is red.  (The code renders the three categorical statuses as the
traffic-light strings 🟢/🟡/🔴.) -/
theorem C2_kpi_status (v : ℚ) :
    (0.85 ≤ v → kpi_status v = "🟢") ∧
    (0.75 ≤ v ∧ v < 0.85 → kpi_status v = "🟡") ∧
    (v < 0.75 → kpi_status v = "🔴") ∧
    kpi_status 0.8 = "🟡" ∧ kpi_status 0.9 = "🟢" ∧ kpi_status 0.6 = "🔴" := by
  refine ⟨?_, ?_, ?_, by norm_num [kpi_status], by norm_num [kpi_status],
    by norm_num [kpi_status]⟩
  · intro h
    rw [kpi_status, if_pos (by exact_mod_cast h)]
  · rintro ⟨h1, h2⟩
    rw [kpi_status, if_neg (by push_neg; exact_mod_cast h2), if_pos (by exact_mod_cast h1)]
  · intro h
    rw [kpi_status, if_neg (by push_neg; linarith), if_neg (by push_neg; exact_mod_cast h)]

/-- C2 witness: the theorem applied at the concrete input 0.8. -/
theorem C2_kpi_status_witness : kpi_status 0.8 = "🟡" :=
  (C2_kpi_status 0.8).2.1 ⟨by norm_num, by norm_num⟩

/-- C8: the derived tables are a pure function of the raw tables and the
filter selection — recomputing from equal inputs yields identical
results, and the computation returns fresh tables without touching the
raw inputs (the embedding is purely functional, so non-mutation is
structural). -/
theorem C8_pure_recompute (m1 m2 : List MinuteRecord) (d1 d2 : List DowntimeEvent)
    (s1 s2 : List SPCSample) (sel1 sel2 : FilterSel)
    (hm : m1 = m2) (hd : d1 = d2) (hs : s1 = s2) (hsel : sel1 = sel2) :
    deriveAll m1 d1 s1 sel1 = deriveAll m2 d2 s2 sel2 := by
  subst hm; subst hd; subst hs; subst hsel; rfl

/-- C8 witness: recomputing at one concrete input. -/
theorem C8_pure_recompute_witness :
    deriveAll exM1 exDT [] ⟨"M1", ["S1"], 0, 9⟩ = deriveAll exM1 exDT [] ⟨"M1", ["S1"], 0, 9⟩ :=
  C8_pure_recompute exM1 exM1 exDT exDT [] [] _ _ rfl rfl rfl rfl

/-- C10: in the loss breakdown the performance component is clamped at
zero by `max(0, 1 - avg_perf)` (so it is never negative, and is 0 as
soon as mean performance exceeds 1), while the availability and quality
components are the unclamped `1 - mean` and can go negative. -/
theorem C10_loss_breakdown (av pf ql : ℚ) :
    loss_df av pf ql =
      [("Availability Loss", 1 - av), ("Performance Loss", max 0 (1 - pf)),
       ("Quality Loss", 1 - ql)] ∧
    (∀ p ∈ loss_df av pf ql, p.1 = "Performance Loss" → 0 ≤ p.2) ∧
    (1 < pf → (loss_df av pf ql).map Prod.snd = [1 - av, 0, 1 - ql]) ∧
    (loss_df 1.2 2 1.1).map Prod.snd = [-(0.2 : ℚ), 0, -(0.1 : ℚ)] := by
  refine ⟨rfl, ?_, ?_, ?_⟩
  · intro p hp h
    simp only [loss_df, List.mem_cons, List.not_mem_nil, or_false] at hp
    rcases hp with hq | hq | hq <;> subst hq
    · simp at h
    · exact le_max_left _ _
    · simp at h
  · intro h
    have : max 0 (1 - pf) = 0 := max_eq_left (by linarith)
    simp [loss_df, this]
  · norm_num [loss_df]

/-- A sum of 0/1 flags is at most the number of flags. -/
lemma sum_le_length_of_le_one (g : List ℕ) (h : ∀ x ∈ g, x ≤ 1) : g.sum ≤ g.length := by
  have := List.sum_le_card_nsmul g 1 h
  simpa using this

/-- Pandas division with a non-zero divisor is plain division. -/
lemma pdiv_ne_zero (a b : ℚ) (hb : b ≠ 0) : pdiv a b = .num (a / b) := by
  rw [pdiv, if_neg hb]

/-- C7: on well-formed input (0/1 running flags, good ≤ units) every
derived row with non-zero denominators has availability and quality in
[0, 1] and performance ≥ 0; performance is not clamped and exceeds 1 on
the over-nominal fixture (5/3 > 1). -/
theorem C7_ratio_bounds (l : List MinuteRecord)
    (hwf : ∀ x ∈ l, x.is_running ≤ 1 ∧ x.good_units ≤ x.units)
    (r : DailyOEERow) (hr : r ∈ daily_oee l)
    (hrun : r.running_min ≠ 0) (htot : r.total_units ≠ 0) :
    (∃ a : ℚ, r.availability = .num a ∧ 0 ≤ a ∧ a ≤ 1) ∧
    (∃ q : ℚ, r.quality = .num q ∧ 0 ≤ q ∧ q ≤ 1) ∧
    (∃ p : ℚ, r.performance = .num p ∧ 0 ≤ p) ∧
    (daily_oee exOver).map DailyOEERow.performance = [.num (5/3)] ∧ (1 : ℚ) < 5/3 := by
  obtain ⟨d, _, rfl⟩ := List.mem_map.1 hr
  simp only [oeeRow, aggDay] at hrun htot ⊢
  set g := l.filter (fun x => x.day == d) with hg
  have hmem : ∀ x ∈ g, x ∈ l := fun x hx => (List.mem_filter.1 hx).1
  have hrle : (g.map MinuteRecord.is_running).sum ≤ g.length := by
    refine sum_le_length_of_le_one _ ?_ |>.trans_eq (List.length_map _ _)
    intro x hx
    obtain ⟨y, hy, rfl⟩ := List.mem_map.1 hx
    exact (hwf y (hmem y hy)).1
  have hplan : g.length ≠ 0 := fun h0 => hrun (Nat.le_zero.1 (h0 ▸ hrle))
  have hgle : (g.map MinuteRecord.good_units).sum ≤ (g.map MinuteRecord.units).sum :=
    List.sum_le_sum fun y hy => (hwf y (hmem y hy)).2
  refine ⟨?_, ?_, ?_, ?_, by norm_num⟩
  · refine ⟨(g.map MinuteRecord.is_running).sum / g.length,
      pdiv_ne_zero _ _ (by exact_mod_cast hplan), by positivity, ?_⟩
    rw [div_le_one (by exact_mod_cast Nat.pos_of_ne_zero hplan)]
    exact_mod_cast hrle
  · refine ⟨(g.map MinuteRecord.good_units).sum / (g.map MinuteRecord.units).sum,
      pdiv_ne_zero _ _ (by exact_mod_cast htot), by positivity, ?_⟩
    rw [div_le_one (by exact_mod_cast Nat.pos_of_ne_zero htot)]
    exact_mod_cast hgle
  · exact ⟨(g.map MinuteRecord.units).sum /
      (IDEAL_RATE * (g.map MinuteRecord.is_running).sum),
      pdiv_ne_zero _ _ (mul_ne_zero (by norm_num [IDEAL_RATE]) (by exact_mod_cast hrun)),
      by rw [IDEAL_RATE]; positivity⟩
  · rw [daily_oee_exOver]
    rfl

/-- C7 witness: the theorem applied to the over-nominal one-row day. -/
theorem C7_ratio_bounds_witness :
    ∃ a : ℚ, (⟨1, 1, 1, 10, 10, .num 1, .num (5/3), .num 1,
      .num (5/3)⟩ : DailyOEERow).availability = .num a ∧ 0 ≤ a ∧ a ≤ 1 :=
  (C7_ratio_bounds exOver
    (by intro x hx; simp only [exOver, List.mem_cons, List.not_mem_nil, or_false] at hx
        subst hx; exact ⟨le_refl 1, le_refl 10⟩)
    ⟨1, 1, 1, 10, 10, .num 1, .num (5/3), .num 1, .num (5/3)⟩
    (by rw [daily_oee_exOver]; exact List.mem_cons_self _ _)
    (by norm_num) (by norm_num)).1

/-- A left fold with `max` lands on its seed or one of the folded
elements. -/
lemma foldl_max_mem (x : ℚ) (xs : List ℚ) : xs.foldl max x ∈ x :: xs := by
  induction xs generalizing x with
  | nil => simp
  | cons y ys ih =>
      simp only [List.foldl_cons]
      rcases List.mem_cons.1 (ih (max x y)) with h | h
      · rcases max_choice x y with hxy | hxy <;> rw [h, hxy] <;> simp
      · simp [h]

/-- A left fold with `max` bounds its seed and every folded element. -/
lemma le_foldl_max (x : ℚ) (xs : List ℚ) : ∀ y ∈ x :: xs, y ≤ xs.foldl max x := by
  induction xs generalizing x with
  | nil => simp
  | cons z zs ih =>
      intro y hy
      simp only [List.foldl_cons]
      rcases List.mem_cons.1 hy with rfl | hy2
      · exact le_trans (le_max_left y z) (ih (max y z) _ (List.mem_cons_self _ _))
      · rcases List.mem_cons.1 hy2 with rfl | hy3
        · exact le_trans (le_max_right x y) (ih (max x y) _ (List.mem_cons_self _ _))
        · exact ih (max x z) y (List.mem_cons_of_mem _ hy3)

/-- C9: on a machine with at least one SPC sample, `spc_summary` returns
the arithmetic mean of `xbar`, the arithmetic mean of `R` and the
maximum of `R`, and the "Process Status: In Control" banner is a fixed
constant string that does not depend on the sample data. -/
theorem C9_spc_summary (l : List SPCSample) (m : String)
    (h : l.filter (fun s => s.machine == m) ≠ []) :
    (spc_summary l m).avg_xbar =
      .num (((l.filter (fun s => s.machine == m)).map SPCSample.xbar).sum /
        (l.filter (fun s => s.machine == m)).length) ∧
    (spc_summary l m).avg_range =
      .num (((l.filter (fun s => s.machine == m)).map SPCSample.R).sum /
        (l.filter (fun s => s.machine == m)).length) ∧
    (∃ q : ℚ, (spc_summary l m).max_range = .num q ∧
      q ∈ (l.filter (fun s => s.machine == m)).map SPCSample.R ∧
      ∀ x ∈ (l.filter (fun s => s.machine == m)).map SPCSample.R, x ≤ q) ∧
    (∀ (l2 : List SPCSample) (m2 : String), processStatus l m = processStatus l2 m2) := by
  set f := l.filter (fun s => s.machine == m) with hf
  have hne : ¬ (f.map SPCSample.xbar).isEmpty := by
    simp only [List.isEmpty_iff, List.map_eq_nil_iff]
    exact h
  have hne2 : ¬ (f.map SPCSample.R).isEmpty := by
    simp only [List.isEmpty_iff, List.map_eq_nil_iff]
    exact h
  refine ⟨?_, ?_, ?_, fun _ _ => rfl⟩
  · show qmean _ = _
    rw [qmean, if_neg hne, List.length_map]
  · show qmean _ = _
    rw [qmean, if_neg hne2, List.length_map]
  · show ∃ q, qmax (f.map SPCSample.R) = _ ∧ _
    cases hm : f.map SPCSample.R with
    | nil => exact absurd (List.map_eq_nil_iff.1 hm) h
    | cons x xs =>
        exact ⟨xs.foldl max x, rfl, foldl_max_mem x xs, le_foldl_max x xs⟩

/-- C9 witness: the theorem applied to a one-sample table. -/
theorem C9_spc_summary_witness :
    (spc_summary [⟨"M1", 10, 2⟩] "M1").avg_xbar =
      .num (((([⟨"M1", 10, 2⟩] : List SPCSample).filter
        (fun s => s.machine == "M1")).map SPCSample.xbar).sum /
        (([⟨"M1", 10, 2⟩] : List SPCSample).filter (fun s => s.machine == "M1")).length) :=
  (C9_spc_summary [⟨"M1", 10, 2⟩] "M1" (by simp)).1

/-- Attaching the cumulative column keeps the row count. -/
lemma withCum_length (t acc : ℚ) (s : List ParetoRow) :
    (withCum t acc s).length = s.length := by
  induction s generalizing acc with
  | nil => rfl
  | cons r rs ih => simp [withCum, ih]

/-- Attaching the cumulative column keeps the minutes column. -/
lemma withCum_map_minutes (t acc : ℚ) (s : List ParetoRow) :
    (withCum t acc s).map ParetoRowC.minutes = s.map ParetoRow.minutes := by
  induction s generalizing acc with
  | nil => rfl
  | cons r rs ih => simp [withCum, ih]

/-- Attaching the cumulative column keeps the (cause, minutes) content of each row in order. -/
lemma withCum_map_pair (t acc : ℚ) (s : List ParetoRow) :
    (withCum t acc s).map (fun rc => (rc.cause, rc.minutes)) =
      s.map (fun r => (r.cause, r.minutes)) := by
  induction s generalizing acc with
  | nil => rfl
  | cons r rs ih => simp [withCum, ih]

/-- The i-th row of `withCum` carries the i-th input row's cause and
minutes and the running prefix sum (offset by the accumulator) divided
by the total. -/
lemma withCum_getElem (t : ℚ) (s : List ParetoRow) (acc : ℚ) (i : ℕ) (r : ParetoRow)
    (h : s[i]? = some r) :
    (withCum t acc s)[i]? =
      some ⟨r.cause, r.minutes,
        pdiv (acc + ((s.take (i + 1)).map ParetoRow.minutes).sum) t⟩ := by
  induction s generalizing acc i with
  | nil => simp at h
  | cons x xs ih =>
      cases i with
      | zero =>
          simp only [List.getElem?_cons_zero, Option.some.injEq] at h
          subst h
          simp [withCum]
      | succ n =>
          simp only [List.getElem?_cons_succ] at h
          simp only [withCum, List.getElem?_cons_succ, List.take_succ_cons,
            List.map_cons, List.sum_cons]
          rw [ih _ _ h, add_assoc]

/-- The descending sort is a permutation of the grouped rows. -/
lemma dt_sorted_perm (l : List DowntimeEvent) (m : String) :
    (dt_sorted l m).Perm (grouped_dt l m) :=
  (List.reverse_perm _).trans (List.perm_insertionSort _ _)

/-- The cause keys are distinct. -/
lemma causeKeys_nodup (f : List DowntimeEvent) : (causeKeys f).Nodup :=
  ((List.perm_insertionSort _ _).nodup_iff).2 (List.nodup_dedup _)

/-- A label is a cause key exactly when some event carries it. -/
lemma mem_causeKeys (f : List DowntimeEvent) (c : String) :
    c ∈ causeKeys f ↔ ∃ e ∈ f, e.cause = c := by
  rw [causeKeys, List.mem_insertionSort, List.mem_dedup, List.mem_map]

/-- Splitting a mapped sum along a Boolean predicate. -/
lemma sum_map_filter_split {α : Type u} (p : α → Bool) (v : α → ℚ) (f : List α) :
    ((f.filter p).map v).sum + ((f.filter (fun e => !(p e))).map v).sum = (f.map v).sum := by
  induction f with
  | nil => simp
  | cons x xs ih =>
      by_cases h : p x <;> simp only [List.filter_cons, h] <;> simp [← ih] <;> ring

/-- Summing per-key fiber sums over a duplicate-free covering key list
recovers the total sum. -/
lemma sum_fibers {α : Type u} (v : α → ℚ) (k : α → String) :
    ∀ (keys : List String) (f : List α), keys.Nodup → (∀ e ∈ f, k e ∈ keys) →
      (keys.map (fun c => ((f.filter (fun e => k e == c)).map v).sum)).sum = (f.map v).sum := by
  intro keys
  induction keys with
  | nil =>
      intro f _ hcov
      have hf : f = [] := by
        cases f with
        | nil => rfl
        | cons x xs => exact absurd (hcov x (List.mem_cons_self x xs)) (List.not_mem_nil _)
      subst hf
      simp
  | cons c ks ih =>
      intro f hnd hcov
      have hck : c ∉ ks := (List.nodup_cons.1 hnd).1
      simp only [List.map_cons, List.sum_cons]
      have hrest : ∀ c2 ∈ ks,
          f.filter (fun e => k e == c2) =
            (f.filter (fun e => !(k e == c))).filter (fun e => k e == c2) := by
        intro c2 hc2
        rw [List.filter_filter]
        refine List.filter_congr ?_
        intro e _
        cases hkc : (k e == c2) with
        | true =>
            have hne : (k e == c) = false := by
              rw [beq_eq_false_iff_ne]
              have h2 : k e = c2 := by simpa using hkc
              rw [h2]
              exact fun hcc => hck (hcc ▸ hc2)
            simp [hkc, hne]
        | false => simp [hkc]
      have hmap : ks.map (fun c2 => ((f.filter (fun e => k e == c2)).map v).sum) =
          ks.map (fun c2 =>
            (((f.filter (fun e => !(k e == c))).filter (fun e => k e == c2)).map v).sum) := by
        refine List.map_congr_left ?_
        intro c2 hc2
        rw [hrest c2 hc2]
      rw [hmap, ih (f.filter (fun e => !(k e == c))) (List.nodup_cons.1 hnd).2 ?_]
      · exact sum_map_filter_split (fun e => k e == c) v f
      · intro e he
        obtain ⟨hef, hene⟩ := List.mem_filter.1 he
        rcases List.mem_cons.1 (hcov e hef) with hc | hk
        · exfalso
          have hene2 : (!(k e == c)) = true := hene
          rw [hc, beq_self_eq_true] at hene2
          simp at hene2
        · exact hk

/-- The grouped table's minutes add up to the machine's raw downtime
total. -/
lemma grouped_total (l : List DowntimeEvent) (m : String) :
    ((grouped_dt l m).map ParetoRow.minutes).sum =
      ((l.filter (fun e => e.machine == m)).map DowntimeEvent.minutes).sum := by
  simp only [grouped_dt, List.map_map]
  exact sum_fibers DowntimeEvent.minutes DowntimeEvent.cause _ _
    (causeKeys_nodup _) (fun e he => (mem_causeKeys _ _).2 ⟨e, he, rfl⟩)

/-- The sorted table's minutes add up to the machine's raw downtime
total. -/
lemma dt_sorted_total (l : List DowntimeEvent) (m : String) :
    ((dt_sorted l m).map ParetoRow.minutes).sum =
      ((l.filter (fun e => e.machine == m)).map DowntimeEvent.minutes).sum := by
  rw [((dt_sorted_perm l m).map ParetoRow.minutes).sum_eq, grouped_total]

/-- With nonnegative event durations every grouped row's sum is
nonnegative. -/
lemma dt_sorted_minutes_nonneg (l : List DowntimeEvent) (m : String)
    (hn : ∀ e ∈ l, 0 ≤ e.minutes) :
    ∀ r ∈ dt_sorted l m, 0 ≤ r.minutes := by
  intro r hr
  have hr2 : r ∈ grouped_dt l m := ((dt_sorted_perm l m).mem_iff).1 hr
  simp only [grouped_dt, List.mem_map] at hr2
  obtain ⟨c, _, rfl⟩ := hr2
  refine List.sum_nonneg ?_
  intro x hx
  obtain ⟨e, he, rfl⟩ := List.mem_map.1 hx
  exact hn e (List.mem_filter.1 (List.mem_filter.1 he).1).1

/-- Prefix sums of a nonnegative list are monotone in the prefix
length. -/
lemma sum_take_mono (s : List ℚ) (hs : ∀ x ∈ s, 0 ≤ x) {i j : ℕ} (hij : i ≤ j) :
    (s.take i).sum ≤ (s.take j).sum := by
  have hsub : List.Sublist (s.take i) (s.take j) := by
    have : s.take i = (s.take j).take i := by
      rw [List.take_take, min_eq_left hij]
    rw [this]
    exact List.take_sublist i (s.take j)
  exact hsub.sum_le_sum fun x hx => hs x ((List.take_sublist j s).subset hx)

/-- The descending sort really is sorted: the minutes column is
non-increasing. -/
lemma dt_sorted_sorted (l : List DowntimeEvent) (m : String) :
    List.Pairwise (fun a b : ParetoRow => b.minutes ≤ a.minutes) (dt_sorted l m) := by
  rw [dt_sorted, List.pairwise_reverse]
  exact List.sorted_insertionSort _ _

/-- The spec's downtime example survives its machine filter whole. -/
lemma exDT_filter : exDT.filter (fun e => e.machine == "M1") = exDT := by
  simp [exDT]

/-- The downtime example's distinct causes in label order. -/
lemma causeKeys_exDT : causeKeys exDT = ["A", "B", "C", "D"] := by decide

/-- Grouping the downtime example. -/
lemma grouped_exDT :
    grouped_dt exDT "M1" = [⟨"A", 120⟩, ⟨"B", 80⟩, ⟨"C", 50⟩, ⟨"D", 10⟩] := by
  simp only [grouped_dt, exDT_filter, causeKeys_exDT]
  simp [exDT]

/-- Sorting the downtime example (already descending). -/
lemma dt_sorted_exDT :
    dt_sorted exDT "M1" = [⟨"A", 120⟩, ⟨"B", 80⟩, ⟨"C", 50⟩, ⟨"D", 10⟩] := by
  rw [dt_sorted, grouped_exDT]
  norm_num [List.insertionSort, List.orderedInsert]

/-- The full Pareto table of the downtime example: cumulative shares
120/260 = 6/13, 200/260 = 10/13, 250/260 = 25/26, and 1. -/
lemma dt_exDT :
    dt exDT "M1" = [⟨"A", 120, .num (6/13)⟩, ⟨"B", 80, .num (10/13)⟩,
      ⟨"C", 50, .num (25/26)⟩, ⟨"D", 10, .num 1⟩] := by
  simp only [dt, dt_sorted_exDT]
  norm_num [withCum, pdiv]

/-- The tie example survives its machine filter whole. -/
lemma exTie_filter : exTie.filter (fun e => e.machine == "M1") = exTie := by
  simp [exTie]

/-- The tie example's distinct causes in label order. -/
lemma causeKeys_exTie : causeKeys exTie = ["A", "B"] := by decide

/-- Grouping the tie example. -/
lemma grouped_exTie : grouped_dt exTie "M1" = [⟨"A", 50⟩, ⟨"B", 50⟩] := by
  simp only [grouped_dt, exTie_filter, causeKeys_exTie]
  simp [exTie]

/-- Sorting the tie example: the pandas descending sort (reverse of the
ascending order) puts B before A even though A was first seen first. -/
lemma dt_sorted_exTie : dt_sorted exTie "M1" = [⟨"B", 50⟩, ⟨"A", 50⟩] := by
  rw [dt_sorted, grouped_exTie]
  norm_num [List.insertionSort, List.orderedInsert]

/-- The tie example's full Pareto table. -/
lemma dt_exTie :
    dt exTie "M1" = [⟨"B", 50, .num (1/2)⟩, ⟨"A", 50, .num 1⟩] := by
  simp only [dt, dt_sorted_exTie]
  norm_num [withCum, pdiv]

/-- C3: over a machine's downtime events with nonnegative durations and
positive total minutes, every `cum_pct` entry is the running prefix sum
of the sorted minutes divided by the total, the `cum_pct` column is
monotonically non-decreasing, and the last row's `cum_pct` is exactly 1;
on the example {A:120, B:80, C:50, D:10} the column is 6/13 ≈ 0.4615,
10/13 ≈ 0.7692, 25/26 ≈ 0.9615, 1. -/
theorem C3_cum_pct (l : List DowntimeEvent) (m : String)
    (hn : ∀ e ∈ l, 0 ≤ e.minutes)
    (ht : 0 < ((l.filter (fun e => e.machine == m)).map DowntimeEvent.minutes).sum) :
    (∀ (i : ℕ) (r : ParetoRow), (dt_sorted l m)[i]? = some r →
      (dt l m)[i]? = some ⟨r.cause, r.minutes,
        .num ((((dt_sorted l m).take (i + 1)).map ParetoRow.minutes).sum /
          ((dt_sorted l m).map ParetoRow.minutes).sum)⟩) ∧
    List.Pairwise pLe ((dt l m).map ParetoRowC.cum_pct) ∧
    (∃ rlast, (dt l m).getLast? = some rlast ∧ rlast.cum_pct = .num 1) ∧
    (dt exDT "M1").map ParetoRowC.cum_pct =
      [.num (6/13), .num (10/13), .num (25/26), .num 1] := by
  have htpos : 0 < ((dt_sorted l m).map ParetoRow.minutes).sum := by
    rw [dt_sorted_total]
    exact ht
  have htne : ((dt_sorted l m).map ParetoRow.minutes).sum ≠ 0 := ne_of_gt htpos
  have hnn : ∀ x ∈ (dt_sorted l m).map ParetoRow.minutes, 0 ≤ x := by
    intro x hx
    obtain ⟨r, hr, rfl⟩ := List.mem_map.1 hx
    exact dt_sorted_minutes_nonneg l m hn r hr
  have hform : ∀ (i : ℕ) (r : ParetoRow), (dt_sorted l m)[i]? = some r →
      (dt l m)[i]? = some ⟨r.cause, r.minutes,
        .num ((((dt_sorted l m).take (i + 1)).map ParetoRow.minutes).sum /
          ((dt_sorted l m).map ParetoRow.minutes).sum)⟩ := by
    intro i r h
    simp only [dt]
    rw [withCum_getElem _ _ _ _ _ h, zero_add, pdiv_ne_zero _ _ htne]
  refine ⟨hform, ?_, ?_, by rw [dt_exDT]; rfl⟩
  · rw [List.pairwise_iff_getElem]
    intro i j hi hj hij
    have hlen : ((dt l m).map ParetoRowC.cum_pct).length = (dt_sorted l m).length := by
      simp only [List.length_map, dt, withCum_length]
    have his : i < (dt_sorted l m).length := hlen ▸ hi
    have hjs : j < (dt_sorted l m).length := hlen ▸ hj
    have hid : i < (dt l m).length := by
      simp only [dt, withCum_length]
      exact his
    have hjd : j < (dt l m).length := by
      simp only [dt, withCum_length]
      exact hjs
    have h1 := hform i _ (List.getElem?_eq_getElem his)
    have h2 := hform j _ (List.getElem?_eq_getElem hjs)
    rw [List.getElem?_eq_getElem hid] at h1
    rw [List.getElem?_eq_getElem hjd] at h2
    simp only [List.getElem_map]
    rw [Option.some.inj h1, Option.some.inj h2]
    refine ⟨_, _, rfl, rfl, ?_⟩
    have hmono := sum_take_mono ((dt_sorted l m).map ParetoRow.minutes) hnn
      (show i + 1 ≤ j + 1 by omega)
    rw [← List.map_take, ← List.map_take] at hmono
    gcongr
  · have hsne : dt_sorted l m ≠ [] := by
      intro h0
      rw [h0] at htpos
      simp at htpos
    have h1 := hform ((dt_sorted l m).length - 1) _
      (List.getElem?_eq_getElem
        (show (dt_sorted l m).length - 1 < (dt_sorted l m).length by
          have := List.length_pos.2 hsne
          omega))
    rw [show (dt_sorted l m).length - 1 + 1 = (dt_sorted l m).length by
        have := List.length_pos.2 hsne
        omega,
      List.take_length, div_self htne] at h1
    rw [List.getLast?_eq_getElem?,
      show (dt l m).length = (dt_sorted l m).length by simp only [dt, withCum_length]]
    exact ⟨_, h1, rfl⟩

/-- C3 witness: the theorem applied to the example table {A:120, B:80,
C:50, D:10}. -/
theorem C3_cum_pct_witness :
    ∃ rlast, (dt exDT "M1").getLast? = some rlast ∧ rlast.cum_pct = .num 1 :=
  (C3_cum_pct exDT "M1"
    (by
      intro e he
      simp only [exDT, List.mem_cons, List.not_mem_nil, or_false] at he
      rcases he with h | h | h | h <;> subst h <;> norm_num)
    (by rw [exDT_filter]; norm_num [exDT])).2.2.1

/-- C4 (amended): the Pareto builder groups one machine's events by
cause, sums minutes, and emits rows sorted by summed minutes
non-increasing with every distinct cause present exactly with its fiber
sum; but ties between equal-minute causes are NOT broken by first-seen
cause label — pandas sorts group keys by label and its descending sort
reverses the ascending order, so the equal-minute causes A-then-B come
out as B before A. -/
theorem C4_pareto_order (l : List DowntimeEvent) (m : String) :
    List.Pairwise (fun a b : ParetoRowC => b.minutes ≤ a.minutes) (dt l m) ∧
    (∀ rc ∈ dt l m,
       rc.cause ∈ (l.filter (fun e => e.machine == m)).map DowntimeEvent.cause ∧
       rc.minutes = (((l.filter (fun e => e.machine == m)).filter
          (fun e => e.cause == rc.cause)).map DowntimeEvent.minutes).sum) ∧
    (∀ c ∈ (l.filter (fun e => e.machine == m)).map DowntimeEvent.cause,
       ∃ rc ∈ dt l m, rc.cause = c) ∧
    (dt exTie "M1").map ParetoRowC.cause = ["B", "A"] := by
  refine ⟨?_, ?_, ?_, by rw [dt_exTie]; rfl⟩
  · have h1 : (dt l m).map ParetoRowC.minutes = (dt_sorted l m).map ParetoRow.minutes := by
      simp only [dt]
      exact withCum_map_minutes _ _ _
    have h3 : List.Pairwise (fun x y : ℚ => y ≤ x)
        ((dt_sorted l m).map ParetoRow.minutes) :=
      List.pairwise_map.2 (dt_sorted_sorted l m)
    rw [← h1] at h3
    exact List.pairwise_map.1 h3
  · intro rc hrc
    have hpair : (rc.cause, rc.minutes) ∈
        (dt_sorted l m).map (fun r => (r.cause, r.minutes)) := by
      have hmm : (rc.cause, rc.minutes) ∈
          (dt l m).map (fun x => (x.cause, x.minutes)) := List.mem_map_of_mem _ hrc
      simp only [dt] at hmm
      rw [withCum_map_pair] at hmm
      exact hmm
    obtain ⟨r, hr, hpr⟩ := List.mem_map.1 hpair
    have hrg : r ∈ grouped_dt l m := (dt_sorted_perm l m).mem_iff.1 hr
    simp only [grouped_dt, List.mem_map] at hrg
    obtain ⟨c, hc, rfl⟩ := hrg
    injection hpr with hc1 hc2
    constructor
    · rw [← hc1]
      obtain ⟨e, he, hec⟩ := (mem_causeKeys _ _).1 hc
      exact List.mem_map.2 ⟨e, he, hec⟩
    · rw [← hc2, ← hc1]
  · intro c hcm
    obtain ⟨e, he, rfl⟩ := List.mem_map.1 hcm
    have hck : e.cause ∈ causeKeys (l.filter (fun x => x.machine == m)) :=
      (mem_causeKeys _ _).2 ⟨e, he, rfl⟩
    have hrow : (⟨e.cause, (((l.filter (fun x => x.machine == m)).filter
        (fun x => x.cause == e.cause)).map DowntimeEvent.minutes).sum⟩ : ParetoRow) ∈
        grouped_dt l m := by
      simp only [grouped_dt]
      exact List.mem_map_of_mem _ hck
    have hsor := (dt_sorted_perm l m).mem_iff.2 hrow
    have hp : (e.cause, (((l.filter (fun x => x.machine == m)).filter
        (fun x => x.cause == e.cause)).map DowntimeEvent.minutes).sum) ∈
        (dt l m).map (fun rc => (rc.cause, rc.minutes)) := by
      simp only [dt]
      rw [withCum_map_pair]
      exact List.mem_map_of_mem _ hsor
    obtain ⟨rc, hrc, hpr⟩ := List.mem_map.1 hp
    injection hpr with hp1 hp2
    exact ⟨rc, hrc, hp1⟩

/-- C4 counterexample: two equal-minute causes first seen in the order
A, B come out of the code's Pareto table as B, A — not in first-seen
order as the claim's stable-sort tie-breaking would give. -/
theorem C4_counterexample :
    (dt exTie "M1").map ParetoRowC.cause = ["B", "A"] ∧
    (["B", "A"] : List String) ≠ ["A", "B"] :=
  ⟨by rw [dt_exTie]; rfl, by decide⟩

end OEEApp
